import Mathlib

/-!
Verification of the Typora image uploader (`main.py`).

The development shallowly embeds the program: the filesystem is a map from
path strings to byte lists, the Pillow/WebP encoders, the hash function, the
HTTP download and the upload endpoint are oracle parameters, and the three
pieces of the program — `compress_image`, the `Drive` token client, and the
`__main__` argument loop — are translated as Lean functions over that state.
-/

/-- Bytes of a file, one `Nat` per byte. -/
abbrev Bytes : Type := List Nat

/-- The local filesystem: a partial map from path strings to file contents. -/
def FS : Type := String → Option Bytes

namespace FS

/-- Read the content stored at path `p` (`none` when no such file exists). -/
def read (fs : FS) (p : String) : Option Bytes := fs p

/-- Model of the file writes (open in wb mode, image.save): create or
overwrite `p`. -/
def write (fs : FS) (p : String) (c : Bytes) : FS :=
  fun q => if q = p then some c else fs q

/-- Model of os.remove(p). -/
def remove (fs : FS) (p : String) : FS :=
  fun q => if q = p then none else fs q

/-- Model of os.rename(src, dst): `dst` receives the content of `src`,
`src` vanishes. -/
def rename (fs : FS) (src dst : String) : FS :=
  if src = dst then fs
  else fun q => if q = src then none else if q = dst then fs src else fs q

/-- Model of os.path.getsize(p): byte size of the file at `p`. -/
def getsize (fs : FS) (p : String) : Nat := ((fs p).getD []).length

end FS

/-! ### Python string and path primitives used by `main.py` -/

/-- Python `s.startswith(pre)`. -/
def pyStartsWith (s pre : String) : Bool := pre.data.isPrefixOf s.data

/-- Python `s.endswith(suf)`. -/
def pyEndsWith (s suf : String) : Bool := suf.data.reverse.isPrefixOf s.data.reverse

/-- Helper for the Python substring test `pat in s`: does `pat` occur as a
contiguous run? -/
def hasInfix (pat : List Char) : List Char → Bool
  | [] => pat.isPrefixOf []
  | c :: rest => pat.isPrefixOf (c :: rest) || hasInfix pat rest

/-- Python `pat in s` (substring containment over the whole string). -/
def pyContains (s pat : String) : Bool := hasInfix pat.data s.data

/-- Python `s.lower()` on the ASCII identifiers the program feeds it. -/
def pyLower (s : String) : String := ⟨s.data.map Char.toLower⟩

/-- Model of os.path.basename for POSIX paths: everything after the last
slash. -/
def basenameChars (l : List Char) : List Char :=
  l.foldl (fun acc c => if c = '/' then [] else acc ++ [c]) []

/-- Model of os.path.basename. -/
def basename (s : String) : String := ⟨basenameChars s.data⟩

/-- Index of the last dot in the list, if any. -/
def lastDotIdxAux : List Char → Nat → Option Nat → Option Nat
  | [], _, acc => acc
  | c :: rest, i, acc => lastDotIdxAux rest (i + 1) (if c = '.' then some i else acc)

/-- Index of the last dot in the list, if any. -/
def lastDotIdx (l : List Char) : Option Nat := lastDotIdxAux l 0 none

/-- Model of os.path.splitext(name)[0] for a bare filename (no slash): drop
the last
extension, except when every character before the last dot is itself a dot
(e.g. `".hidden"`, `".."`), in which case the name is returned whole. -/
def splitextRoot (s : String) : String :=
  match lastDotIdx s.data with
  | none => s
  | some i => if (s.data.take i).all (fun c => c = '.') then s else ⟨s.data.take i⟩

/-- Model of os.path.join(d, n) for POSIX paths. -/
def joinPath (d n : String) : String :=
  if pyStartsWith n "/" then n
  else if (d == "") || pyEndsWith d "/" then d ++ n
  else d ++ "/" ++ n

/-- One pass of Python `s.replace(pat, repl)` over char lists, with enough
fuel to consume the whole list (`pat` is nonempty at every call site). -/
def replaceListAux (pat repl : List Char) : Nat → List Char → List Char
  | _, [] => []
  | 0, l => l
  | fuel + 1, c :: rest =>
    if pat.isPrefixOf (c :: rest) then
      repl ++ replaceListAux pat repl fuel ((c :: rest).drop pat.length)
    else
      c :: replaceListAux pat repl fuel rest

/-- Python `s.replace(pat, repl)`: every non-overlapping occurrence, left to
right. -/
def strReplace (s pat repl : String) : String :=
  ⟨replaceListAux pat.data repl.data s.data.length s.data⟩

/-! ### The compressor (`compress_image` in `main.py`) -/

/-- A decoded image as Pillow presents it: its detected `format` (e.g.
`"GIF"`) plus the decoded payload. -/
structure Image where
  format : String
  pixels : List Nat
deriving DecidableEq

/-- Model of compress_image(input_path, output_dir, lossy_quality) from
`main.py`.

`decode` stands for the PIL.Image.open decoding of the file bytes,
`encLossless img` for the bytes produced by the lossless webp save
(image.save with lossless=True and save_all=True) and `encLossy img q` for
the lossy webp save at quality `q`.

Returns `none` on the error paths of the original (missing input file, or
`shutil.copy` onto the same path, which raises `SameFileError`); otherwise
the updated filesystem together with the returned output path. -/
def compress_image (decode : Bytes → Image) (encLossless : Image → Bytes)
    (encLossy : Image → Nat → Bytes) (fs : FS)
    (input_path output_dir : String) (lossy_quality : Nat) :
    Option (FS × String) :=
  let filename := basename input_path
  match fs.read input_path with
  | none => none
  | some bytes =>
    let image := decode bytes
    if image.format = "GIF" then
      let output_path := joinPath output_dir filename
      if input_path = output_path then none
      else some (fs.write output_path bytes, output_path)
    else
      let filename2 := splitextRoot filename ++ ".webp"
      let output_path := joinPath output_dir filename2
      let lossless_output_path := strReplace output_path ".webp" "_lossless.webp"
      let fs1 := fs.write lossless_output_path (encLossless image)
      let lossless_size := fs1.getsize lossless_output_path
      let fs2 := fs1.write output_path (encLossy image lossy_quality)
      let lossy_size := fs2.getsize output_path
      if lossless_size < lossy_size then
        some ((fs2.remove output_path).rename lossless_output_path output_path,
              output_path)
      else
        some (fs2.remove lossless_output_path, output_path)

/-! ### The OneDrive client (`class Drive` in `main.py`) -/

/-- The five fields of `config.yaml` that the program reads and writes. -/
structure Config where
  client_id : String
  client_secret : String
  refresh_token : String
  access_token : String
  expires_at : Int
deriving DecidableEq

/-- The JSON body returned by the Microsoft token endpoint. -/
structure TokenResponse where
  access_token : String
  refresh_token : String
  expires_in : Int
deriving DecidableEq

/-- One outgoing HTTP request of the `Drive` client, with the data the
program puts in it. -/
inductive ApiCall where
  | refreshCall (client_id redirect_uri client_secret refresh_token grant_type : String)
  | uploadCall (drive_file_path : String) (content : Bytes)
deriving DecidableEq

/-- Recognize a token-refresh request in the call trace. -/
def ApiCall.isRefreshCall : ApiCall → Bool
  | .refreshCall _ _ _ _ _ => true
  | .uploadCall _ _ => false

/-- Recognize an upload request in the call trace. -/
def ApiCall.isUploadCall : ApiCall → Bool
  | .refreshCall _ _ _ _ _ => false
  | .uploadCall _ _ => true

/-- State of a `Drive` object: its in-memory `self.config`, the content of
`config.yaml` on disk, and the trace of HTTP calls issued so far. -/
structure DriveState where
  config : Config
  savedConfig : Config
  calls : List ApiCall
deriving DecidableEq

namespace Drive

/-- Model of Drive.refresh_access_token: POST the refresh request (built
from the
current config), store the returned token triple with expiry `now +
expires_in` into `self.config`, and dump the whole config back to
`config.yaml`.  `resp` is the oracle for `r.json()`, `now` for
`int(time.time())`. -/
def refresh_access_token (resp : TokenResponse) (now : Int) (s : DriveState) :
    DriveState :=
  let call := ApiCall.refreshCall s.config.client_id
      "http://localhost:5000/callback" s.config.client_secret
      s.config.refresh_token "refresh_token"
  let cfg := { s.config with
    access_token := resp.access_token
    refresh_token := resp.refresh_token
    expires_at := now + resp.expires_in }
  { config := cfg, savedConfig := cfg, calls := s.calls ++ [call] }

/-- Model of Drive.get_access_token: refresh first when the stored expiry
is more
than 60 seconds in the past, then return the current access token. -/
def get_access_token (resp : TokenResponse) (now : Int) (s : DriveState) :
    String × DriveState :=
  if s.config.expires_at < now - 60 then
    let s' := refresh_access_token resp now s
    (s'.config.access_token, s')
  else
    (s.config.access_token, s)

end Drive

/-! ### The `__main__` argument loop -/

/-- Everything the loop gets from the outside world: `hashlib.md5(...)
.hexdigest()`, `requests.get(url).content`, the `id` field of the upload
field (as a function of the remote path and uploaded bytes), and the
Pillow/WebP codec of `compress_image`. -/
structure Oracles where
  md5hex : String → String
  download : String → Bytes
  uploadId : String → Bytes → String
  decode : Bytes → Image
  encLossless : Image → Bytes
  encLossy : Image → Nat → Bytes

/-- Observable actions of one loop iteration, in program order. -/
inductive Event where
  | downloadEv (url : String) (localPath : String)
  | compressEv (inputPath : String) (outputPath : String)
  | uploadEv (remotePath : String) (content : Bytes)
  | printEv (line : String)
  | removeEv (path : String)
deriving DecidableEq

/-- State threaded through the argument loop: the filesystem, the lines
printed to stdout, and the trace of performed actions. -/
structure LoopState where
  fs : FS
  printed : List String
  events : List Event

/-- Outcome of one iteration: continue with the next argument, `break` out
of the loop, or abort with an uncaught exception. -/
inductive StepResult where
  | next (st : LoopState)
  | stop (st : LoopState)
  | err

/-- The fixed public base URL, the `img_url_base` of `main.py`. -/
def img_url_base : String := "https://img.0a0.moe/od/"

/-- The tail of a loop iteration shared by local and downloaded images:
compress into `temp`, upload to `base ++ <compressed name>`, print the
public URL, delete the compressed file. -/
def processLocal (O : Oracles) (base : String) (st : LoopState)
    (img_path : String) : StepResult :=
  match compress_image O.decode O.encLossless O.encLossy st.fs img_path "temp" 80 with
  | none => .err
  | some (fs', compressed_img_path) =>
    match fs'.read compressed_img_path with
    | none => .err
    | some content =>
      let img_name := basename compressed_img_path
      let remote := base ++ img_name
      let file_id := O.uploadId remote content
      let url := img_url_base ++ pyLower file_id
      .next { fs := fs'.remove compressed_img_path,
              printed := st.printed ++ [url],
              events := st.events ++
                [.compressEv img_path compressed_img_path,
                 .uploadEv remote content, .printEv url,
                 .removeEv compressed_img_path] }

/-- One iteration of the `for img_path in args.args` loop. -/
def processArg (O : Oracles) (base : String) (st : LoopState)
    (img_path : String) : StepResult :=
  if pyStartsWith img_path "http" then
    if pyContains img_path "img.jks.moe" || pyContains img_path "img.0a0.moe" then
      .stop { st with printed := st.printed ++ [img_path],
                      events := st.events ++ [.printEv img_path] }
    else
      let img_url := img_path
      let img_name := basename (O.md5hex img_url)
      let localPath := "temp/" ++ img_name
      let fs1 := st.fs.write localPath (O.download img_url)
      processLocal O base
        { st with fs := fs1, events := st.events ++ [.downloadEv img_url localPath] }
        localPath
  else
    processLocal O base st img_path

/-- The whole loop over the positional arguments; `none` when an iteration
aborts with an exception, otherwise the final state. -/
def processArgs (O : Oracles) (base : String) (st : LoopState) :
    List String → Option LoopState
  | [] => some st
  | a :: rest =>
    match processArg O base st a with
    | .next st' => processArgs O base st' rest
    | .stop st' => some st'
    | .err => none

/-! ### Path facts about the two candidate files of `compress_image` -/

/-- The final output path of the non-GIF branch:
the base name with its extension replaced by .webp, joined under the
output directory. -/
def webpOutPath (input_path output_dir : String) : String :=
  joinPath output_dir (splitextRoot (basename input_path) ++ ".webp")

/-- The intermediate lossless candidate:
the output path with .webp replaced by _lossless.webp throughout. -/
def losslessTempPath (input_path output_dir : String) : String :=
  strReplace (webpOutPath input_path output_dir) ".webp" "_lossless.webp"

/-! ### Concrete instances used to exercise the theorems below -/

/-- A filesystem holding a PNG-like file and a GIF file. -/
def fs0 : FS := fun p =>
  if p = "photo.png" then some [1, 2, 3, 4, 5]
  else if p = "anim.gif" then some [9, 9, 9] else none

/-- A second filesystem agreeing with `fs0` on `photo.png` only. -/
def fsOnlyPhoto : FS := fun p =>
  if p = "photo.png" then some [1, 2, 3, 4, 5] else none

/-- Decoder oracle: `[9, 9, 9]` decodes as a GIF, everything else as PNG. -/
def decode0 : Bytes → Image := fun b =>
  if b = [9, 9, 9] then ⟨"GIF", b⟩ else ⟨"PNG", b⟩

/-- Lossless encoder oracle: keeps the decoded payload. -/
def encL0 : Image → Bytes := fun i => i.pixels

/-- Lossy encoder oracle: strictly smaller output (drops three bytes). -/
def encQ0 : Image → Nat → Bytes := fun i _ => i.pixels.drop 3

/-- A lossy encoder whose output exactly ties the lossless one in size. -/
def encTie : Image → Nat → Bytes := fun i _ => i.pixels.map (fun b => b + 1)

/-- A concrete token-endpoint response. -/
def resp0 : TokenResponse := ⟨"newAccess", "newRefresh", 3600⟩

/-- Credential record sitting exactly on the `now - 60` boundary for
`now = 1000`. -/
def cfg940 : Config := ⟨"cid", "csecret", "rtok", "atok", 940⟩

/-- Drive state holding `cfg940` with an empty call trace. -/
def s940 : DriveState := ⟨cfg940, cfg940, []⟩

/-- A clearly expired credential record for `now = 1000`. -/
def cfg900 : Config := ⟨"cid", "csecret", "rtok", "atok", 900⟩

/-- Drive state holding `cfg900` with an empty call trace. -/
def s900 : DriveState := ⟨cfg900, cfg900, []⟩

/-- Concrete oracle bundle for the loop theorems. -/
def O0 : Oracles :=
  { md5hex := fun _ => "0a1b2c"
    download := fun _ => [1, 2, 3, 4, 5]
    uploadId := fun _ _ => "ID42"
    decode := decode0
    encLossless := encL0
    encLossy := encQ0 }

/-- Loop state with an empty filesystem and nothing printed. -/
def st0 : LoopState := { fs := fun _ => none, printed := [], events := [] }

/-- Loop state whose filesystem is `fs0`. -/
def stP : LoopState := { fs := fs0, printed := [], events := [] }

theorem replaceListAux_length_ge (pat repl : List Char) (hp : pat ≠ [])
    (hlen : pat.length ≤ repl.length) :
    ∀ fuel l, l.length ≤ fuel → l.length ≤ (replaceListAux pat repl fuel l).length := by
  intro fuel
  induction fuel with
  | zero =>
    intro l hl
    have hnil : l = [] := List.length_eq_zero.mp (Nat.le_zero.mp hl)
    subst hnil
    simp [replaceListAux]
  | succ fuel ih =>
    intro l hl
    match l with
    | [] => simp [replaceListAux]
    | c :: rest =>
      rw [replaceListAux]
      by_cases hpre : pat.isPrefixOf (c :: rest)
      · rw [if_pos hpre]
        have hplen : 0 < pat.length := List.length_pos.mpr hp
        have hple : pat.length ≤ (c :: rest).length :=
          ( List.isPrefixOf_iff_prefix.mp hpre).length_le
        have hdrop : ((c :: rest).drop pat.length).length ≤ fuel := by
          simp only [List.length_drop, List.length_cons] at *
          omega
        have hrec := ih ((c :: rest).drop pat.length) hdrop
        simp only [List.length_append, List.length_drop, List.length_cons] at *
        omega
      · rw [if_neg hpre]
        have hrest : rest.length ≤ fuel := by
          simp only [List.length_cons] at hl
          omega
        have hrec := ih rest hrest
        simp only [List.length_cons]
        omega

theorem replaceListAux_length_gt (pat repl : List Char) (hp : pat ≠ [])
    (hlen : pat.length < repl.length) :
    ∀ fuel l, l.length ≤ fuel → pat <:+: l →
      l.length < (replaceListAux pat repl fuel l).length := by
  intro fuel
  induction fuel with
  | zero =>
    intro l hl hinf
    have hnil : l = [] := List.length_eq_zero.mp (Nat.le_zero.mp hl)
    subst hnil
    have hplen : 0 < pat.length := List.length_pos.mpr hp
    have hle : pat.length ≤ 0 := by simpa using hinf.length_le
    omega
  | succ fuel ih =>
    intro l hl hinf
    match l with
    | [] =>
      have hplen : 0 < pat.length := List.length_pos.mpr hp
      have hle : pat.length ≤ 0 := by simpa using hinf.length_le
      omega
    | c :: rest =>
      rw [replaceListAux]
      by_cases hpre : pat.isPrefixOf (c :: rest)
      · rw [if_pos hpre]
        have hplen : 0 < pat.length := List.length_pos.mpr hp
        have hple : pat.length ≤ (c :: rest).length :=
          ( List.isPrefixOf_iff_prefix.mp hpre).length_le
        have hdrop : ((c :: rest).drop pat.length).length ≤ fuel := by
          simp only [List.length_drop, List.length_cons] at *
          omega
        have hrec := replaceListAux_length_ge pat repl hp (Nat.le_of_lt hlen)
          fuel ((c :: rest).drop pat.length) hdrop
        simp only [List.length_append, List.length_drop, List.length_cons] at *
        omega
      · rw [if_neg hpre]
        have hcase := List.infix_cons_iff.mp hinf
        have hinfrest : pat <:+: rest := by
          rcases hcase with hc | hc
          · exact absurd ( List.isPrefixOf_iff_prefix.mpr hc) hpre
          · exact hc
        have hrest : rest.length ≤ fuel := by
          simp only [List.length_cons] at hl
          omega
        have hrec := ih rest hrest hinfrest
        simp only [List.length_cons]
        omega

theorem strReplace_lossless_longer (s : String) (h : (".webp").data <:+: s.data) :
    s.data.length < (strReplace s ".webp" "_lossless.webp").data.length :=
  replaceListAux_length_gt (".webp").data ("_lossless.webp").data (by decide)
    (by decide) s.data.length s.data (Nat.le_refl _) h

theorem strReplace_lossless_ne (s : String) (h : (".webp").data <:+: s.data) :
    strReplace s ".webp" "_lossless.webp" ≠ s := by
  intro he
  have hlen := congrArg (fun t : String => t.data.length) he
  have hgt := strReplace_lossless_longer s h
  simp only at hlen
  omega

theorem webp_suffix_joinPath (d x : String) :
    (".webp").data <:+ (joinPath d (x ++ ".webp")).data := by
  have hbase : (".webp").data <:+ (x ++ ".webp").data := by
    rw [String.data_append]
    exact List.suffix_append _ _
  rw [joinPath]
  by_cases h1 : pyStartsWith (x ++ ".webp") "/"
  · rw [if_pos h1]
    exact hbase
  · rw [if_neg h1]
    by_cases h2 : ((d == "") || pyEndsWith d "/") = true
    · rw [if_pos h2, String.data_append]
      exact hbase.trans (List.suffix_append _ _)
    · rw [if_neg h2, String.data_append]
      exact hbase.trans (List.suffix_append _ _)

theorem losslessTempPath_ne_webpOutPath (input_path output_dir : String) :
    losslessTempPath input_path output_dir ≠ webpOutPath input_path output_dir :=
  strReplace_lossless_ne _ (webp_suffix_joinPath _ _).isInfix

/-- Full description of the non-GIF branch of `compress_image`: afterwards
the lossless intermediate is gone, the `.webp` output path holds whichever
encoding is smaller (the lossy one when the sizes tie), and every other path
is untouched. -/
theorem compress_image_nonGif_eq (decode : Bytes → Image) (encL : Image → Bytes)
    (encQ : Image → Nat → Bytes) (fs : FS) (input dir : String) (q : Nat)
    (bytes : Bytes) (h : fs.read input = some bytes)
    (hfmt : (decode bytes).format ≠ "GIF") :
    compress_image decode encL encQ fs input dir q =
      some (fun p =>
        if p = losslessTempPath input dir then none
        else if p = webpOutPath input dir then
          some (if (encL (decode bytes)).length < (encQ (decode bytes) q).length
                then encL (decode bytes) else encQ (decode bytes) q)
        else fs p,
        webpOutPath input dir) := by
  have hne := losslessTempPath_ne_webpOutPath input dir
  simp only [compress_image, h, webpOutPath, losslessTempPath] at *
  rw [if_neg hfmt]
  have hll : (FS.write fs
      (strReplace (joinPath dir (splitextRoot (basename input) ++ ".webp"))
        ".webp" "_lossless.webp") (encL (decode bytes))).getsize
      (strReplace (joinPath dir (splitextRoot (basename input) ++ ".webp"))
        ".webp" "_lossless.webp") = (encL (decode bytes)).length := by
    simp [FS.write, FS.getsize]
  have hlo : ∀ fs1 : FS, (FS.write fs1
      (joinPath dir (splitextRoot (basename input) ++ ".webp"))
      (encQ (decode bytes) q)).getsize
      (joinPath dir (splitextRoot (basename input) ++ ".webp")) =
      (encQ (decode bytes) q).length := by
    intro fs1
    simp [FS.write, FS.getsize]
  rw [hll, hlo]
  split
  · congr 1
    congr 1
    funext p
    rw [FS.rename, if_neg hne]
    by_cases hp1 : p = strReplace (joinPath dir (splitextRoot (basename input) ++ ".webp"))
        ".webp" "_lossless.webp"
    · simp [hp1]
    · by_cases hp2 : p = joinPath dir (splitextRoot (basename input) ++ ".webp")
      · simp [hp1, hp2, FS.remove, FS.write, hne]
      · simp [hp1, hp2, FS.remove, FS.write]
  · congr 1
    congr 1
    funext p
    by_cases hp1 : p = strReplace (joinPath dir (splitextRoot (basename input) ++ ".webp"))
        ".webp" "_lossless.webp"
    · simp [hp1, FS.remove]
    · by_cases hp2 : p = joinPath dir (splitextRoot (basename input) ++ ".webp")
      · simp [hp1, hp2, FS.remove, FS.write, hne]
      · simp [hp1, hp2, FS.remove, FS.write]

/-- The GIF branch of `compress_image`: verbatim copy to
`output_dir/<original filename>`. -/
theorem compress_image_gif_eq (decode : Bytes → Image) (encL : Image → Bytes)
    (encQ : Image → Nat → Bytes) (fs : FS) (input dir : String) (q : Nat)
    (bytes : Bytes) (h : fs.read input = some bytes)
    (hfmt : (decode bytes).format = "GIF")
    (hne : input ≠ joinPath dir (basename input)) :
    compress_image decode encL encQ fs input dir q =
      some (fs.write (joinPath dir (basename input)) bytes,
            joinPath dir (basename input)) := by
  simp only [compress_image, h]
  rw [if_pos hfmt, if_neg hne]

/-! ### Basic reading lemmas for the filesystem model -/

theorem FS.read_write_self (fs : FS) (p : String) (c : Bytes) :
    (fs.write p c).read p = some c := by
  simp [FS.read, FS.write]

theorem FS.read_write_ne (fs : FS) (p q : String) (c : Bytes) (h : q ≠ p) :
    (fs.write p c).read q = fs.read q := by
  simp [FS.read, FS.write, h]

theorem FS.read_remove_self (fs : FS) (p : String) :
    (fs.remove p).read p = none := by
  simp [FS.read, FS.remove]

theorem FS.read_remove_ne (fs : FS) (p q : String) (h : q ≠ p) :
    (fs.remove p).read q = fs.read q := by
  simp [FS.read, FS.remove, h]

/-- The function `hasInfix` decides substring containment. -/
theorem hasInfix_iff (pat l : List Char) : hasInfix pat l = true ↔ pat <:+: l := by
  induction l with
  | nil =>
    simp [hasInfix, List.isPrefixOf_iff_prefix]
  | cons c rest ih =>
    simp [hasInfix, List.isPrefixOf_iff_prefix, ih, List.infix_cons_iff]

/-! ### Claim C1 -/

/-- C1: for every non-animated (non-GIF) input image, `compress_image`
writes its result to `outputDir/<base>.webp`, the size of the result is at
most the minimum of the lossless and lossy candidate sizes, the losing
candidate file is deleted (so of the files this call creates exactly the
output file remains in `outputDir`), and no other path is affected. -/
theorem compress_image_nonGif_min_size (decode : Bytes → Image)
    (encL : Image → Bytes) (encQ : Image → Nat → Bytes) (fs : FS)
    (input dir : String) (q : Nat) (bytes : Bytes)
    (h : fs.read input = some bytes) (hfmt : (decode bytes).format ≠ "GIF") :
    ∃ fs' : FS,
      compress_image decode encL encQ fs input dir q =
        some (fs', webpOutPath input dir) ∧
      fs'.getsize (webpOutPath input dir) ≤
        min (encL (decode bytes)).length ((encQ (decode bytes) q)).length ∧
      fs'.read (webpOutPath input dir) ≠ none ∧
      fs'.read (losslessTempPath input dir) = none ∧
      (∀ p, p ≠ webpOutPath input dir → p ≠ losslessTempPath input dir →
        fs'.read p = fs.read p) := by
  have hne := losslessTempPath_ne_webpOutPath input dir
  have hne' : webpOutPath input dir ≠ losslessTempPath input dir := Ne.symm hne
  refine ⟨_, compress_image_nonGif_eq decode encL encQ fs input dir q bytes h hfmt,
    ?_, ?_, ?_, ?_⟩
  · simp only [FS.getsize]
    by_cases hc : (encL (decode bytes)).length < ((encQ (decode bytes) q)).length <;>
      simp [hne', hc] <;> omega
  · simp [FS.read, hne']
  · simp [FS.read]
  · intro p hp1 hp2
    simp [FS.read, hp1, hp2]

/-- Witness for C1 on a concrete five-byte PNG-like file. -/
theorem compress_image_nonGif_min_size_witness :
    fs0.read "photo.png" = some [1, 2, 3, 4, 5] ∧
    (decode0 [1, 2, 3, 4, 5]).format ≠ "GIF" ∧
    (∃ fs' : FS,
      compress_image decode0 encL0 encQ0 fs0 "photo.png" "out" 80 =
        some (fs', webpOutPath "photo.png" "out") ∧
      fs'.getsize (webpOutPath "photo.png" "out") ≤
        min (encL0 (decode0 [1, 2, 3, 4, 5])).length
          ((encQ0 (decode0 [1, 2, 3, 4, 5]) 80)).length ∧
      fs'.read (webpOutPath "photo.png" "out") ≠ none ∧
      fs'.read (losslessTempPath "photo.png" "out") = none ∧
      (∀ p, p ≠ webpOutPath "photo.png" "out" →
        p ≠ losslessTempPath "photo.png" "out" → fs'.read p = fs0.read p)) :=
  ⟨by decide, by decide,
    compress_image_nonGif_min_size decode0 encL0 encQ0 fs0 "photo.png" "out" 80
      [1, 2, 3, 4, 5] (by decide) (by decide)⟩

/-! ### Claim C5 -/

/-- C5: for every animated (GIF) input, `compress_image` returns
`outputDir/<original filename>` with the extension unchanged, the file
there is byte-identical to the input, and nothing else changes (no
re-encoding is performed). -/
theorem compress_image_gif_copy (decode : Bytes → Image) (encL : Image → Bytes)
    (encQ : Image → Nat → Bytes) (fs : FS) (input dir : String) (q : Nat)
    (bytes : Bytes) (h : fs.read input = some bytes)
    (hfmt : (decode bytes).format = "GIF")
    (hne : input ≠ joinPath dir (basename input)) :
    ∃ fs' : FS,
      compress_image decode encL encQ fs input dir q =
        some (fs', joinPath dir (basename input)) ∧
      fs'.read (joinPath dir (basename input)) = some bytes ∧
      (∀ p, p ≠ joinPath dir (basename input) → fs'.read p = fs.read p) := by
  refine ⟨_, compress_image_gif_eq decode encL encQ fs input dir q bytes h hfmt hne,
    ?_, ?_⟩
  · exact FS.read_write_self fs _ bytes
  · intro p hp
    exact FS.read_write_ne fs _ p bytes hp

/-- Witness for C5 on a concrete three-byte GIF file. -/
theorem compress_image_gif_copy_witness :
    fs0.read "anim.gif" = some [9, 9, 9] ∧
    (decode0 [9, 9, 9]).format = "GIF" ∧
    "anim.gif" ≠ joinPath "out" (basename "anim.gif") ∧
    (∃ fs' : FS,
      compress_image decode0 encL0 encQ0 fs0 "anim.gif" "out" 80 =
        some (fs', joinPath "out" (basename "anim.gif")) ∧
      fs'.read (joinPath "out" (basename "anim.gif")) = some [9, 9, 9] ∧
      (∀ p, p ≠ joinPath "out" (basename "anim.gif") →
        fs'.read p = fs0.read p)) :=
  ⟨by decide, by decide, by decide,
    compress_image_gif_copy decode0 encL0 encQ0 fs0 "anim.gif" "out" 80
      [9, 9, 9] (by decide) (by decide) (by decide)⟩

/-! ### Claim C7 -/

/-- C7: `compress_image` is a deterministic function of the input file
bytes and the quality: two runs over filesystems holding the same input
bytes return the same output path with byte-identical content (or both fail
in the same way). -/
theorem compress_image_deterministic (decode : Bytes → Image)
    (encL : Image → Bytes) (encQ : Image → Nat → Bytes) (fsA fsB : FS)
    (input dir : String) (q : Nat) (bytes : Bytes)
    (hA : fsA.read input = some bytes) (hB : fsB.read input = some bytes) :
    Option.map (fun r : FS × String => (r.2, r.1.read r.2))
        (compress_image decode encL encQ fsA input dir q) =
      Option.map (fun r : FS × String => (r.2, r.1.read r.2))
        (compress_image decode encL encQ fsB input dir q) := by
  by_cases hfmt : (decode bytes).format = "GIF"
  · by_cases hne : input = joinPath dir (basename input)
    · simp only [compress_image, hA, hB]
      rw [if_pos hfmt, if_pos hfmt, if_pos hne, if_pos hne]
    · rw [compress_image_gif_eq decode encL encQ fsA input dir q bytes hA hfmt hne,
        compress_image_gif_eq decode encL encQ fsB input dir q bytes hB hfmt hne]
      simp [FS.read_write_self]
  · rw [compress_image_nonGif_eq decode encL encQ fsA input dir q bytes hA hfmt,
      compress_image_nonGif_eq decode encL encQ fsB input dir q bytes hB hfmt]
    have hne := losslessTempPath_ne_webpOutPath input dir
    simp [FS.read, Ne.symm hne]

/-- Witness for C7: two different filesystems holding the same
`photo.png`. -/
theorem compress_image_deterministic_witness :
    fs0.read "photo.png" = some [1, 2, 3, 4, 5] ∧
    fsOnlyPhoto.read "photo.png" = some [1, 2, 3, 4, 5] ∧
    Option.map (fun r : FS × String => (r.2, r.1.read r.2))
        (compress_image decode0 encL0 encQ0 fs0 "photo.png" "out" 80) =
      Option.map (fun r : FS × String => (r.2, r.1.read r.2))
        (compress_image decode0 encL0 encQ0 fsOnlyPhoto "photo.png" "out" 80) :=
  ⟨by decide, by decide,
    compress_image_deterministic decode0 encL0 encQ0 fs0 fsOnlyPhoto
      "photo.png" "out" 80 [1, 2, 3, 4, 5] (by decide) (by decide)⟩

/-! ### Claim C9 -/

/-- C9: when the lossless and lossy candidates have exactly equal sizes, the
strict `<` comparison keeps the lossy candidate and deletes the lossless
one. -/
theorem compress_image_tie_keeps_lossy (decode : Bytes → Image)
    (encL : Image → Bytes) (encQ : Image → Nat → Bytes) (fs : FS)
    (input dir : String) (q : Nat) (bytes : Bytes)
    (h : fs.read input = some bytes) (hfmt : (decode bytes).format ≠ "GIF")
    (hsz : (encL (decode bytes)).length = ((encQ (decode bytes) q)).length) :
    ∃ fs' : FS,
      compress_image decode encL encQ fs input dir q =
        some (fs', webpOutPath input dir) ∧
      fs'.read (webpOutPath input dir) = some (encQ (decode bytes) q) ∧
      fs'.read (losslessTempPath input dir) = none := by
  have hne := losslessTempPath_ne_webpOutPath input dir
  have hne' : webpOutPath input dir ≠ losslessTempPath input dir := Ne.symm hne
  refine ⟨_, compress_image_nonGif_eq decode encL encQ fs input dir q bytes h hfmt,
    ?_, ?_⟩
  · simp [FS.read, hne', hsz]
  · simp [FS.read]

/-- Witness for C9 with a tie-producing lossy encoder. -/
theorem compress_image_tie_keeps_lossy_witness :
    fs0.read "photo.png" = some [1, 2, 3, 4, 5] ∧
    (decode0 [1, 2, 3, 4, 5]).format ≠ "GIF" ∧
    (encL0 (decode0 [1, 2, 3, 4, 5])).length =
      ((encTie (decode0 [1, 2, 3, 4, 5]) 80)).length ∧
    (∃ fs' : FS,
      compress_image decode0 encL0 encTie fs0 "photo.png" "out" 80 =
        some (fs', webpOutPath "photo.png" "out") ∧
      fs'.read (webpOutPath "photo.png" "out") =
        some (encTie (decode0 [1, 2, 3, 4, 5]) 80) ∧
      fs'.read (losslessTempPath "photo.png" "out") = none) :=
  ⟨by decide, by decide, by decide,
    compress_image_tie_keeps_lossy decode0 encL0 encTie fs0 "photo.png" "out" 80
      [1, 2, 3, 4, 5] (by decide) (by decide) (by decide)⟩

/-! ### Claim C2 -/

/-- C2 counterexample: with `now = 1000` and a stored `expires_at = 940` we
have `expires_at ≤ now - 60`, yet `get_access_token` issues no refresh call
at all and returns the old state unchanged — the comparison in the code is
strict `expires_at < now - 60`, so the claimed `≤` trigger is wrong on the
boundary. -/
theorem get_access_token_boundary_no_refresh :
    s940.config.expires_at ≤ 1000 - 60 ∧
    (Drive.get_access_token resp0 1000 s940).2.calls.countP
      ApiCall.isRefreshCall = 0 ∧
    (Drive.get_access_token resp0 1000 s940).2 = s940 := by
  refine ⟨by decide, ?_, ?_⟩ <;> decide

/-- C2 (amended): when `expires_at < now - 60` the accessor issues exactly
one refresh call (and no upload call), stores the returned token triple with
the new expiry, and persists the whole record before returning it; when
`expires_at ≥ now - 60` it issues no call and changes nothing. -/
theorem get_access_token_refresh_policy (resp : TokenResponse) (now : Int)
    (s : DriveState) :
    (s.config.expires_at < now - 60 →
      Drive.get_access_token resp now s =
        (resp.access_token,
         { config := { s.config with
             access_token := resp.access_token
             refresh_token := resp.refresh_token
             expires_at := now + resp.expires_in }
           savedConfig := { s.config with
             access_token := resp.access_token
             refresh_token := resp.refresh_token
             expires_at := now + resp.expires_in }
           calls := s.calls ++ [ApiCall.refreshCall s.config.client_id
             "http://localhost:5000/callback" s.config.client_secret
             s.config.refresh_token "refresh_token"] })) ∧
    (now - 60 ≤ s.config.expires_at →
      Drive.get_access_token resp now s = (s.config.access_token, s)) := by
  constructor
  · intro h
    simp [Drive.get_access_token, Drive.refresh_access_token, h]
  · intro h
    simp [Drive.get_access_token, Drive.refresh_access_token, not_lt.mpr h]

/-- Witness for the amended C2: the expired record `s900` triggers exactly
one refresh, the boundary record `s940` triggers none. -/
theorem get_access_token_refresh_policy_witness :
    (s900.config.expires_at < 1000 - 60 ∧
      Drive.get_access_token resp0 1000 s900 =
        (resp0.access_token,
         { config := { s900.config with
             access_token := resp0.access_token
             refresh_token := resp0.refresh_token
             expires_at := 1000 + resp0.expires_in }
           savedConfig := { s900.config with
             access_token := resp0.access_token
             refresh_token := resp0.refresh_token
             expires_at := 1000 + resp0.expires_in }
           calls := s900.calls ++ [ApiCall.refreshCall s900.config.client_id
             "http://localhost:5000/callback" s900.config.client_secret
             s900.config.refresh_token "refresh_token"] })) ∧
    ((1000 : Int) - 60 ≤ s940.config.expires_at ∧
      Drive.get_access_token resp0 1000 s940 =
        (s940.config.access_token, s940)) :=
  ⟨⟨by decide, (get_access_token_refresh_policy resp0 1000 s900).1 (by decide)⟩,
   ⟨by decide, (get_access_token_refresh_policy resp0 1000 s940).2 (by decide)⟩⟩

/-! ### Claim C6 -/

/-- C6: after every refresh, the in-memory record holds exactly the token
pair returned by the refresh call with expiry `now + expires_in`, and the
identical record has been written back to `config.yaml` before the
operation returns, so the stored expiry always reflects the token in use. -/
theorem refresh_access_token_persists (resp : TokenResponse) (now : Int)
    (s : DriveState) :
    (Drive.refresh_access_token resp now s).config.access_token =
      resp.access_token ∧
    (Drive.refresh_access_token resp now s).config.refresh_token =
      resp.refresh_token ∧
    (Drive.refresh_access_token resp now s).config.expires_at =
      now + resp.expires_in ∧
    (Drive.refresh_access_token resp now s).savedConfig =
      (Drive.refresh_access_token resp now s).config := by
  simp [Drive.refresh_access_token]

/-! ### Claim C3 -/

/-- C3: when the loop reaches an argument that is a URL on the public-URL
domain, it prints only that path, performs no download, compression or
upload for it, leaves the filesystem untouched, and processes none of the
remaining arguments: the whole batch stops there. -/
theorem main_halts_on_hosted_url (O : Oracles) (base : String) (st : LoopState)
    (a : String) (rest : List String)
    (h1 : pyStartsWith a "http" = true)
    (h2 : pyContains a "img.0a0.moe" = true) :
    processArgs O base st (a :: rest) =
      some { st with printed := st.printed ++ [a],
                     events := st.events ++ [Event.printEv a] } := by
  simp [processArgs, processArg, h1, h2]

/-- Witness for C3: a hosted URL followed by another argument that is never
processed. -/
theorem main_halts_on_hosted_url_witness :
    pyStartsWith "https://img.0a0.moe/od/xyz" "http" = true ∧
    pyContains "https://img.0a0.moe/od/xyz" "img.0a0.moe" = true ∧
    processArgs O0 "host/blog/post/temp/" st0
        ["https://img.0a0.moe/od/xyz", "next.png"] =
      some { st0 with
        printed := st0.printed ++ ["https://img.0a0.moe/od/xyz"],
        events := st0.events ++ [Event.printEv "https://img.0a0.moe/od/xyz"] } :=
  ⟨by decide, by decide,
    main_halts_on_hosted_url O0 "host/blog/post/temp/" st0
      "https://img.0a0.moe/od/xyz" ["next.png"] (by decide) (by decide)⟩

/-! ### Claim C10 -/

theorem pyStartsWith_append2 (p s t : String) :
    pyStartsWith ((p ++ s) ++ t) p = true := by
  rw [pyStartsWith, List.isPrefixOf_iff_prefix]
  rw [String.data_append, String.data_append]
  exact (List.prefix_append _ _).trans (List.prefix_append _ _)

theorem pyContains_middle (x pat y : String) :
    pyContains (x ++ (pat ++ y)) pat = true := by
  rw [pyContains, hasInfix_iff]
  refine ⟨x.data, y.data, ?_⟩
  simp [String.data_append, List.append_assoc]

/-- C10: the already-hosted exemption is a substring test on the whole URL
string, not a host comparison: any argument of the shape
`"http" ++ u ++ "img.jks.moe" ++ v` — with the exempt string anywhere,
including in the path or query — prints the path and halts the batch, and
`img.jks.moe` is exempt even though it is not the public-URL domain. -/
theorem exempt_check_is_substring (O : Oracles) (base : String)
    (st : LoopState) (u v : String) (rest : List String) :
    processArgs O base st ((("http" ++ u) ++ ("img.jks.moe" ++ v)) :: rest) =
      some { st with
        printed := st.printed ++ [("http" ++ u) ++ ("img.jks.moe" ++ v)],
        events := st.events ++
          [Event.printEv (("http" ++ u) ++ ("img.jks.moe" ++ v))] } := by
  have h1 := pyStartsWith_append2 "http" u ("img.jks.moe" ++ v)
  have h2 := pyContains_middle ("http" ++ u) "img.jks.moe" v
  simp [processArgs, processArg, h1, h2]

/-! ### Claim C8 -/

theorem processLocal_next_printed (O : Oracles) (base : String)
    (st : LoopState) (img_path : String) (st' : LoopState)
    (h : processLocal O base st img_path = StepResult.next st') :
    ∃ remote content,
      Event.uploadEv remote content ∈ st'.events ∧
      st'.printed = st.printed ++
        [img_url_base ++ pyLower (O.uploadId remote content)] := by
  unfold processLocal at h
  split at h
  · exact StepResult.noConfusion h
  · rename_i fsw compressed hcomp
    split at h
    · exact StepResult.noConfusion h
    · rename_i content hread
      injection h with h2
      subst h2
      exact ⟨base ++ basename compressed, content, by simp, rfl⟩

/-- C8: every image the loop actually uploads gets exactly one printed line,
equal to the fixed public base URL concatenated with the lower-cased `id`
field returned by the upload endpoint. -/
theorem printed_url_is_base_and_lower_id (O : Oracles) (base : String)
    (st st' : LoopState) (a : String)
    (h : processArg O base st a = StepResult.next st') :
    ∃ remote content,
      Event.uploadEv remote content ∈ st'.events ∧
      st'.printed = st.printed ++
        [img_url_base ++ pyLower (O.uploadId remote content)] := by
  cases hb : pyStartsWith a "http" with
  | false =>
    simp only [processArg, hb] at h
    simp at h
    exact processLocal_next_printed O base st a st' h
  | true =>
    cases hex1 : pyContains a "img.jks.moe" with
    | true => simp [processArg, hb, hex1] at h
    | false =>
      cases hex2 : pyContains a "img.0a0.moe" with
      | true => simp [processArg, hb, hex1, hex2] at h
      | false =>
        simp only [processArg, hb, hex1, hex2] at h
        simp at h
        exact processLocal_next_printed O base
          { fs := st.fs.write ("temp/" ++ basename (O.md5hex a)) (O.download a)
            printed := st.printed
            events := st.events ++
              [Event.downloadEv a ("temp/" ++ basename (O.md5hex a))] }
          ("temp/" ++ basename (O.md5hex a)) st' h

/-- Witness for C8 on a local `photo.png`. -/
theorem printed_url_is_base_and_lower_id_witness :
    ∃ st',
      processArg O0 "host/blog/post/temp/" stP "photo.png" =
        StepResult.next st' ∧
      ∃ remote content,
        Event.uploadEv remote content ∈ st'.events ∧
        st'.printed = stP.printed ++
          [img_url_base ++ pyLower (O0.uploadId remote content)] := by
  refine ⟨_, rfl, ?_⟩
  exact printed_url_is_base_and_lower_id O0 "host/blog/post/temp/" stP _
    "photo.png" rfl

/-! ### Claim C4 -/

theorem processLocal_nonGif_spec (O : Oracles) (base : String)
    (st : LoopState) (img_path : String) (bytes : Bytes)
    (h : st.fs.read img_path = some bytes)
    (hfmt : (O.decode bytes).format ≠ "GIF") :
    ∃ content,
      processLocal O base st img_path =
        StepResult.next
          { fs := fun p => if p = webpOutPath img_path "temp" then none
              else if p = losslessTempPath img_path "temp" then none
              else st.fs p
            printed := st.printed ++
              [img_url_base ++ pyLower (O.uploadId
                (base ++ basename (webpOutPath img_path "temp")) content)]
            events := st.events ++
              [Event.compressEv img_path (webpOutPath img_path "temp"),
               Event.uploadEv
                 (base ++ basename (webpOutPath img_path "temp")) content,
               Event.printEv (img_url_base ++ pyLower (O.uploadId
                 (base ++ basename (webpOutPath img_path "temp")) content)),
               Event.removeEv (webpOutPath img_path "temp")] } := by
  have hne := losslessTempPath_ne_webpOutPath img_path "temp"
  have hne' : webpOutPath img_path "temp" ≠ losslessTempPath img_path "temp" :=
    Ne.symm hne
  have hc := compress_image_nonGif_eq O.decode O.encLossless O.encLossy st.fs
    img_path "temp" 80 bytes h hfmt
  refine ⟨if (O.encLossless (O.decode bytes)).length <
      (O.encLossy (O.decode bytes) 80).length
    then O.encLossless (O.decode bytes) else O.encLossy (O.decode bytes) 80, ?_⟩
  simp only [processLocal, hc]
  split
  · rename_i heq
    simp [FS.read, hne'] at heq
  · rename_i c heq
    simp [FS.read, hne'] at heq
    subst heq
    refine congrArg StepResult.next ?_
    congr 1
    funext p
    by_cases hp1 : p = webpOutPath img_path "temp"
    · simp [FS.remove, hp1]
    · by_cases hp2 : p = losslessTempPath img_path "temp"
      · simp [FS.remove, hp1, hp2]
      · simp [FS.remove, hp1, hp2]

/-- C4 counterexample: processing the remote URL `http://example.com/a.png`
(md5 oracle `"0a1b2c"`, five downloaded bytes) uploads and prints as
claimed, but afterwards the downloaded temp file `temp/0a1b2c` is still on
the filesystem with the downloaded bytes — the program only deletes the
compressed output, contradicting the claim that both files are removed. -/
theorem remote_temp_file_not_removed :
    ∃ st' : LoopState,
      processArg O0 "host/blog/post/temp/" st0 "http://example.com/a.png" =
        StepResult.next st' ∧
      st'.fs.read "temp/0a1b2c" = some [1, 2, 3, 4, 5] := by
  refine ⟨_, rfl, ?_⟩
  decide

/-- C4 (amended): for every image argument that is a URL not matching the
exempt hosts, the loop downloads it to `temp/<md5(url)>`, compresses it,
uploads the compressed file, prints exactly one URL line for it, and
afterwards the compressed output (and the lossless intermediate) have been
removed — but the downloaded temp file itself remains on the filesystem. -/
theorem remote_image_processing_effects (O : Oracles) (base : String)
    (st : LoopState) (a : String)
    (h1 : pyStartsWith a "http" = true)
    (h2 : pyContains a "img.jks.moe" = false)
    (h3 : pyContains a "img.0a0.moe" = false)
    (hfmt : (O.decode (O.download a)).format ≠ "GIF")
    (hL1 : "temp/" ++ basename (O.md5hex a) ≠
      webpOutPath ("temp/" ++ basename (O.md5hex a)) "temp")
    (hL2 : "temp/" ++ basename (O.md5hex a) ≠
      losslessTempPath ("temp/" ++ basename (O.md5hex a)) "temp") :
    ∃ st' content,
      processArg O base st a = StepResult.next st' ∧
      st'.fs.read ("temp/" ++ basename (O.md5hex a)) = some (O.download a) ∧
      st'.fs.read (webpOutPath ("temp/" ++ basename (O.md5hex a)) "temp") =
        none ∧
      st'.fs.read (losslessTempPath ("temp/" ++ basename (O.md5hex a)) "temp") =
        none ∧
      st'.printed = st.printed ++
        [img_url_base ++ pyLower (O.uploadId
          (base ++ basename (webpOutPath ("temp/" ++ basename (O.md5hex a)) "temp"))
          content)] ∧
      st'.events = st.events ++
        [Event.downloadEv a ("temp/" ++ basename (O.md5hex a)),
         Event.compressEv ("temp/" ++ basename (O.md5hex a))
           (webpOutPath ("temp/" ++ basename (O.md5hex a)) "temp"),
         Event.uploadEv
           (base ++ basename (webpOutPath ("temp/" ++ basename (O.md5hex a)) "temp"))
           content,
         Event.printEv (img_url_base ++ pyLower (O.uploadId
           (base ++ basename (webpOutPath ("temp/" ++ basename (O.md5hex a)) "temp"))
           content)),
         Event.removeEv (webpOutPath ("temp/" ++ basename (O.md5hex a)) "temp")] := by
  obtain ⟨content, hPL⟩ := processLocal_nonGif_spec O base
    { fs := st.fs.write ("temp/" ++ basename (O.md5hex a)) (O.download a)
      printed := st.printed
      events := st.events ++
        [Event.downloadEv a ("temp/" ++ basename (O.md5hex a))] }
    ("temp/" ++ basename (O.md5hex a)) (O.download a)
    (FS.read_write_self _ _ _) hfmt
  have hPA : processArg O base st a =
      processLocal O base
        { fs := st.fs.write ("temp/" ++ basename (O.md5hex a)) (O.download a)
          printed := st.printed
          events := st.events ++
            [Event.downloadEv a ("temp/" ++ basename (O.md5hex a))] }
        ("temp/" ++ basename (O.md5hex a)) := by
    simp only [processArg, h1, h2, h3, Bool.or_false, Bool.false_eq_true,
      eq_self_iff_true, if_true, if_false, ite_true, ite_false]
  refine ⟨_, content, hPA.trans hPL, ?_, ?_, ?_, ?_, ?_⟩
  · simp [FS.read, hL1, hL2, FS.write]
  · simp [FS.read]
  · simp [FS.read, losslessTempPath_ne_webpOutPath
      ("temp/" ++ basename (O.md5hex a)) "temp"]
  · rfl
  · simp

/-- Witness for the amended C4 on a concrete remote URL. -/
theorem remote_image_processing_effects_witness :
    pyStartsWith "http://example.com/b.png" "http" = true ∧
    pyContains "http://example.com/b.png" "img.jks.moe" = false ∧
    pyContains "http://example.com/b.png" "img.0a0.moe" = false ∧
    (O0.decode (O0.download "http://example.com/b.png")).format ≠ "GIF" ∧
    ("temp/" ++ basename (O0.md5hex "http://example.com/b.png") ≠
      webpOutPath ("temp/" ++ basename (O0.md5hex "http://example.com/b.png"))
        "temp") ∧
    ("temp/" ++ basename (O0.md5hex "http://example.com/b.png") ≠
      losslessTempPath
        ("temp/" ++ basename (O0.md5hex "http://example.com/b.png")) "temp") ∧
    (∃ st' content,
      processArg O0 "host/blog/post/temp/" st0 "http://example.com/b.png" =
        StepResult.next st' ∧
      st'.fs.read
        ("temp/" ++ basename (O0.md5hex "http://example.com/b.png")) =
        some (O0.download "http://example.com/b.png") ∧
      st'.fs.read (webpOutPath
        ("temp/" ++ basename (O0.md5hex "http://example.com/b.png")) "temp") =
        none ∧
      st'.fs.read (losslessTempPath
        ("temp/" ++ basename (O0.md5hex "http://example.com/b.png")) "temp") =
        none ∧
      st'.printed = st0.printed ++
        [img_url_base ++ pyLower (O0.uploadId
          ("host/blog/post/temp/" ++ basename (webpOutPath
            ("temp/" ++ basename (O0.md5hex "http://example.com/b.png")) "temp"))
          content)] ∧
      st'.events = st0.events ++
        [Event.downloadEv "http://example.com/b.png"
           ("temp/" ++ basename (O0.md5hex "http://example.com/b.png")),
         Event.compressEv
           ("temp/" ++ basename (O0.md5hex "http://example.com/b.png"))
           (webpOutPath
             ("temp/" ++ basename (O0.md5hex "http://example.com/b.png")) "temp"),
         Event.uploadEv
           ("host/blog/post/temp/" ++ basename (webpOutPath
             ("temp/" ++ basename (O0.md5hex "http://example.com/b.png")) "temp"))
           content,
         Event.printEv (img_url_base ++ pyLower (O0.uploadId
           ("host/blog/post/temp/" ++ basename (webpOutPath
             ("temp/" ++ basename (O0.md5hex "http://example.com/b.png")) "temp"))
           content)),
         Event.removeEv (webpOutPath
           ("temp/" ++ basename (O0.md5hex "http://example.com/b.png"))
           "temp")]) :=
  ⟨by decide, by decide, by decide, by decide, by decide, by decide,
    remote_image_processing_effects O0 "host/blog/post/temp/" st0
      "http://example.com/b.png" (by decide) (by decide) (by decide)
      (by decide) (by decide) (by decide)⟩
